import Mathlib

/-!
Shallow embedding of the resign service (`main.go`): an HTTP service that
downloads an IPA archive from a URL, extracts its `Info.plist` metadata,
caches the analysis in an in-memory map keyed by a freshly generated UUID,
invokes the external `zsign` tool to re-sign the archive, and serves the
resulting artifacts from a per-UUID working directory.

External effects (network download, filesystem, the `zsign` subprocess,
UUID generation, clock) are modelled by an explicit `World` of oracles;
the handlers become pure functions from a `World`, the current cache state
and the request to a result, the new cache state, and a record of the
effects performed (downloads, extractions, directory creations/removals,
signer invocations).

The Go cache `ipaCache : map[string]IPAInfo` is modelled as the list of
its records in insertion order (keys are the `UUID` fields; assignment
replaces an existing key in place, otherwise appends).  Go map *iteration*
order is unspecified, so every function that ranges over the map takes the
iteration order as an explicit list parameter, constrained in theorems to
be a permutation of the cache contents.
-/

/-- The root output directory, `outputDir = "./output"` in main.go. -/
def outputDir : String := "./output"

/-- Models `filepath.Join` for the single-component joins used in main.go. -/
def joinPath (a b : String) : String := a ++ "/" ++ b

/-- The `IPAInfo` struct of main.go (the Analysis Record).  `UploadedAt`
(`time.Now()`) is modelled by a `Nat` timestamp. -/
structure IPAInfo where
  originalURL : String
  uuid : String
  bundleID : String
  appName : String
  uploadedAt : Nat
deriving Repr, DecidableEq

/-- The contents of `ipaCache` in insertion order. -/
abbrev CacheState := List IPAInfo

/-- Models the Go map lookup `ipaCache[ipaUUID]` (deterministic lookup by
key; with unique `uuid` fields, `find?` over the insertion-order list is
exactly that lookup). -/
def findByUUID (s : CacheState) (u : String) : Option IPAInfo :=
  s.find? (fun i => i.uuid == u)

/-- Models the loop `for _, info := range ipaCache { if info.OriginalURL ==
ipaURL { ... } }` at main.go:207-219.  Go map iteration order is
unspecified, so the order the loop visits the records in is an explicit
parameter `order`; theorems constrain it to be a permutation of the cache
contents. -/
def findByOriginOrd (order : List IPAInfo) (url : String) : Option IPAInfo :=
  order.find? (fun i => i.originalURL == url)

/-- Spec-side definition, from the spec's words for `find_by_origin`: "the
first record ever stored for that origin (insertion-order tie-break)".
Since `CacheState` is the insertion-order list, this is `find?` on it. -/
def firstStored (s : CacheState) (url : String) : Option IPAInfo :=
  s.find? (fun i => i.originalURL == url)

/-- Number of records in the cache whose origin is `url`. -/
def countOrigin (s : CacheState) (url : String) : Nat :=
  s.countP (fun i => i.originalURL == url)

/-- Models the Go map assignment `ipaCache[uuidStr] = IPAInfo{...}`
(main.go:252, main.go:374): if the key is already present the record is
replaced in place, otherwise the record is appended.  There is no
duplicate check and no error path. -/
def insertCache (s : CacheState) (r : IPAInfo) : CacheState :=
  if s.any (fun i => i.uuid == r.uuid) then
    s.map (fun i => if i.uuid == r.uuid then r else i)
  else s ++ [r]

/-- A value in the parsed `Info.plist` map (`map[string]interface{}`):
either a Go `string`, or a value of any other dynamic type. -/
inductive PlistValue where
  | str (s : String)
  | other
deriving Repr, DecidableEq

/-- Outcome of the stages of `extractIPAInfo` (main.go:140-176) that
precede the field extraction: opening the archive, locating the
`*.app/Info.plist` entry, opening and reading it, and `plist.Unmarshal`.
`parsed obj` carries the decoded key/value map (as an association list). -/
inductive PlistDoc where
  | openIPAFailed
  | infoPlistNotFound
  | openEntryFailed
  | readFailed
  | parseFailed
  | parsed (obj : List (String × PlistValue))
deriving Repr, DecidableEq

/-- The error returns of `extractIPAInfo`, one per `return "", "", fmt.Errorf(...)`. -/
inductive ExtractError where
  | openIPAFailed
  | infoPlistNotFound
  | openEntryFailed
  | readFailed
  | parseFailed
  | bundleIDMissing
deriving Repr, DecidableEq

/-- Go map lookup `plistObj[k]` on the decoded plist (absent key yields
`nil`, modelled as `none`). -/
def lookupKey (obj : List (String × PlistValue)) (k : String) : Option PlistValue :=
  (obj.find? (fun kv => kv.1 == k)).map (fun kv => kv.2)

/-- Models the Go type assertion `v.(string)`: succeeds exactly on string
values (and fails on `nil`, i.e. an absent key). -/
def asString : Option PlistValue → Option String
  | some (PlistValue.str s) => some s
  | _ => none

/-- The `appName` resolution of main.go:184-191: `CFBundleDisplayName` if
present as a string, else `CFBundleName` if present as a string, else the
placeholder `"Unknown App"`. -/
def resolveAppName (obj : List (String × PlistValue)) : String :=
  match asString (lookupKey obj "CFBundleDisplayName") with
  | some n => n
  | none =>
    match asString (lookupKey obj "CFBundleName") with
    | some n => n
    | none => "Unknown App"

/-- `extractIPAInfo` (main.go:140-194) over a `PlistDoc`: the archive and
decoding stages are represented by the `PlistDoc` constructors; on a
parsed document, `CFBundleIdentifier` must be present as a string
(main.go:179-182), and the app name is resolved by `resolveAppName`. -/
def extractIPAInfo : PlistDoc → Except ExtractError (String × String)
  | .openIPAFailed => .error .openIPAFailed
  | .infoPlistNotFound => .error .infoPlistNotFound
  | .openEntryFailed => .error .openEntryFailed
  | .readFailed => .error .readFailed
  | .parseFailed => .error .parseFailed
  | .parsed obj =>
    match asString (lookupKey obj "CFBundleIdentifier") with
    | none => .error .bundleIDMissing
    | some bundleID => .ok (bundleID, resolveAppName obj)

/-- Oracles for the external world: configuration (`baseURL`), the next
generated UUID (`uuid.New().String()`), the clock (`time.Now()`), and the
outcome of each filesystem / network / subprocess interaction.  The
`Info.plist` document found inside the downloaded archive is `plistDoc`,
fed to `extractIPAInfo`. -/
structure World where
  baseURL : String
  newUUID : String
  now : Nat
  mkdirOK : Bool
  downloadOK : String → Bool
  plistDoc : PlistDoc
  saveP12OK : Bool
  saveMPOK : Bool
  signerExitOK : Bool
  signerOutput : String
  outputExists : Bool
  plistWriteOK : Bool

/-- The JSON body of a successful `/analyze` response (main.go:210-217 and
main.go:262-268). -/
structure AnalyzeResponse where
  uuid : String
  bundleID : String
  appName : String
  sourceURL : String
  analyzed : Bool
deriving Repr, DecidableEq

/-- The error responses of `analyzeIPAHandler`. -/
inductive AnalyzeError where
  | missingURL
  | mkdirFailed
  | downloadFailed
  | extractFailed
deriving Repr, DecidableEq

/-- Effects performed by one `/analyze` request: how many downloads and
metadata extractions were attempted, which working directories were
created (`os.MkdirAll`) and which were removed (`os.RemoveAll`). -/
structure AnalyzeEffects where
  downloads : Nat
  extractions : Nat
  createdDirs : List String
  removedDirs : List String
deriving Repr, DecidableEq

/-- No effects: the cache-hit (and early-error) outcome. -/
def noAnalyzeEffects : AnalyzeEffects :=
  { downloads := 0, extractions := 0, createdDirs := [], removedDirs := [] }

/-- The `source_url` locator `baseURL + "/download/" + uuid + "/source.ipa"`. -/
def sourceDownloadURL (base u : String) : String :=
  base ++ "/download/" ++ u ++ "/source.ipa"

/-- `analyzeIPAHandler` (main.go:197-269).  `order` is the iteration order
of the cache-scan loop (a permutation of `s` in the theorems); the result
is the response, the new cache state, and the effects performed.
Control flow follows the source exactly: empty URL is rejected; a cache
hit returns the cached record with no further work; otherwise a fresh
UUID's directory is created, the archive downloaded (failure returns
without any cleanup), metadata extracted (failure removes the working
directory), and on success the record is stored and returned. -/
def analyzeIPAHandler (w : World) (order : List IPAInfo) (s : CacheState)
    (ipaURL : String) :
    Except AnalyzeError AnalyzeResponse × CacheState × AnalyzeEffects :=
  if ipaURL = "" then (.error .missingURL, s, noAnalyzeEffects)
  else
    match findByOriginOrd order ipaURL with
    | some info =>
      (.ok { uuid := info.uuid, bundleID := info.bundleID,
             appName := info.appName,
             sourceURL := sourceDownloadURL w.baseURL info.uuid,
             analyzed := true }, s, noAnalyzeEffects)
    | none =>
      let uuidStr := w.newUUID
      let workDir := joinPath outputDir uuidStr
      if w.mkdirOK then
        if w.downloadOK ipaURL then
          match extractIPAInfo w.plistDoc with
          | .error _ =>
            (.error .extractFailed, s,
             { downloads := 1, extractions := 1,
               createdDirs := [workDir], removedDirs := [workDir] })
          | .ok (bundleID, appName) =>
            let s' := insertCache s
              { originalURL := ipaURL, uuid := uuidStr, bundleID := bundleID,
                appName := appName, uploadedAt := w.now }
            (.ok { uuid := uuidStr, bundleID := bundleID, appName := appName,
                   sourceURL := sourceDownloadURL w.baseURL uuidStr,
                   analyzed := true }, s',
             { downloads := 1, extractions := 1,
               createdDirs := [workDir], removedDirs := [] })
        else
          (.error .downloadFailed, s,
           { downloads := 1, extractions := 0,
             createdDirs := [workDir], removedDirs := [] })
      else (.error .mkdirFailed, s, noAnalyzeEffects)

/-- Models Go's `strings.HasSuffix` (used at main.go:149, 284, 287):
whether `suffix` is a suffix of `s`, on the character lists. -/
def hasSuffix (s suffix : String) : Bool := suffix.data.isSuffixOf s.data

/-- The result of serving a file from `downloadHandler`: either the 404
response, or the file at `path` with the `Content-Type` header (if any)
and, for `.ipa` files, the attachment filename of the
`Content-Disposition` header. -/
inductive DownloadResult where
  | notFound
  | served (path : String) (contentType : Option String)
      (attachmentName : Option String)
deriving Repr, DecidableEq

/-- `downloadHandler` (main.go:272-292): joins `outputDir/uuid/filename`,
stats the path (the second component of the result lists every filesystem
path accessed), and serves the file with a content type derived from the
filename suffix.  There is no validation of `filename` of any kind. -/
def downloadHandler (fileExists : String → Bool) (u filename : String) :
    DownloadResult × List String :=
  let filePath := joinPath (joinPath outputDir u) filename
  if fileExists filePath then
    if hasSuffix filename ".ipa" then
      (.served filePath (some "application/octet-stream") (some filename),
       [filePath])
    else if hasSuffix filename ".plist" then
      (.served filePath (some "application/xml") none, [filePath])
    else
      (.served filePath none none, [filePath])
  else (.notFound, [filePath])

/-- Modelled from the spec: the fixed allow-list of artifact names
(source archive, signed archive, manifest, credential, profile) that the
spec says `filename` must be restricted to.  The source has no such list;
this definition exists only to state the claim against the code. -/
def specAllowList : List String :=
  ["source.ipa", "resigned.ipa", "manifest.plist", "cert.p12",
   "profile.mobileprovision"]

/-- The fields of a `/resign` request (main.go:302-412): the two
identity fields, the optional overrides, the password, and whether each
multipart file was supplied. -/
structure ResignRequest where
  ipaUUID : String
  ipaURL : String
  bundleIDParam : String
  appNameParam : String
  p12Password : String
  p12Provided : Bool
  mobileprovisionProvided : Bool

/-- The error responses of `resignHandler`, one per early `return`. -/
inductive ResignError where
  | invalidUUID
  | mkdirFailed
  | downloadFailed
  | missingUUIDorURL
  | missingP12
  | saveP12Failed
  | missingMobileprovision
  | saveMPFailed
  | missingPassword
  | missingMetadata
  | signingFailed (output : String)
  | outputMissing
  | plistWriteFailed
deriving Repr, DecidableEq

/-- The JSON body of a successful `/resign` response (main.go:468-475). -/
structure ResignOk where
  uuid : String
  plistURL : String
  sourceURL : String
  ipaURL : String
  bundleID : String
  appName : String
deriving Repr, DecidableEq

/-- One invocation of the external signer: the tool name and its argument
vector, exactly as assembled for `exec.Command` at main.go:428-438. -/
structure SignerCall where
  tool : String
  args : List String
deriving Repr, DecidableEq

/-- Effects performed by one `/resign` request. -/
structure ResignEffects where
  downloads : Nat
  createdDirs : List String
  removedDirs : List String
  signerCalls : List SignerCall
deriving Repr, DecidableEq

/-- No effects yet (the state at the start of a `/resign` request). -/
def noResignEffects : ResignEffects :=
  { downloads := 0, createdDirs := [], removedDirs := [], signerCalls := [] }

/-- The part of `resignHandler` after identity resolution
(main.go:387-476): save the uploaded `p12` and `mobileprovision` files,
require a non-empty password, require non-empty `bundleID`/`appName`,
invoke `zsign` with the fixed argument vector, require a zero exit status
and the existence of the output file, write the manifest plist, and
return the download URLs.  `s` is the cache state as left by identity
resolution (error returns keep it). -/
def resignCommon (w : World) (s : CacheState) (req : ResignRequest)
    (uuidStr workDir sourceIpaPath bundleID appName : String)
    (eff : ResignEffects) :
    Except ResignError ResignOk × CacheState × ResignEffects :=
  if req.p12Provided then
    let p12Path := joinPath workDir "cert.p12"
    if w.saveP12OK then
      if req.mobileprovisionProvided then
        let mpPath := joinPath workDir "profile.mobileprovision"
        if w.saveMPOK then
          if req.p12Password = "" then (.error .missingPassword, s, eff)
          else if bundleID = "" ∨ appName = "" then
            (.error .missingMetadata, s, eff)
          else
            let outputPath := joinPath workDir "resigned.ipa"
            let call : SignerCall :=
              { tool := "zsign",
                args := ["-k", p12Path, "-m", mpPath, "-p", req.p12Password,
                         "-b", bundleID, "-n", appName, "-o", outputPath,
                         "-z", "9", sourceIpaPath] }
            let eff' := { eff with signerCalls := eff.signerCalls ++ [call] }
            if w.signerExitOK then
              if w.outputExists then
                if w.plistWriteOK then
                  (.ok { uuid := uuidStr,
                         plistURL := w.baseURL ++ "/download/" ++ uuidStr
                           ++ "/manifest.plist",
                         sourceURL := sourceDownloadURL w.baseURL uuidStr,
                         ipaURL := w.baseURL ++ "/download/" ++ uuidStr
                           ++ "/resigned.ipa",
                         bundleID := bundleID, appName := appName }, s, eff')
                else (.error .plistWriteFailed, s, eff')
              else (.error .outputMissing, s, eff')
            else (.error (.signingFailed w.signerOutput), s, eff')
        else (.error .saveMPFailed, s, eff)
      else (.error .missingMobileprovision, s, eff)
    else (.error .saveP12Failed, s, eff)
  else (.error .missingP12, s, eff)

/-- `resignHandler` (main.go:295-476).  Identity resolution: a non-empty
`ipa_uuid` must be in the cache (overrides take precedence over the
cached metadata); otherwise a non-empty `ipa_url` allocates a fresh UUID,
creates its directory, downloads the archive (failure removes the
directory), resolves metadata from the overrides with best-effort
extraction as fallback, and stores the record in the cache *before* any
of the later checks; otherwise the request is rejected.  The rest is
`resignCommon`. -/
def resignHandler (w : World) (s : CacheState) (req : ResignRequest) :
    Except ResignError ResignOk × CacheState × ResignEffects :=
  if req.ipaUUID = "" then
    if req.ipaURL = "" then (.error .missingUUIDorURL, s, noResignEffects)
    else
      let uuidStr := w.newUUID
      let workDir := joinPath outputDir uuidStr
      if w.mkdirOK then
        let sourceIpaPath := joinPath workDir "source.ipa"
        if w.downloadOK req.ipaURL then
          let pb := req.bundleIDParam
          let pa := req.appNameParam
          let resolved : String × String :=
            if pb = "" ∨ pa = "" then
              match extractIPAInfo w.plistDoc with
              | .ok (eb, ea) =>
                (if pb = "" then eb else pb, if pa = "" then ea else pa)
              | .error _ => (pb, pa)
            else (pb, pa)
          let s' := insertCache s
            { originalURL := req.ipaURL, uuid := uuidStr,
              bundleID := resolved.1, appName := resolved.2,
              uploadedAt := w.now }
          resignCommon w s' req uuidStr workDir sourceIpaPath
            resolved.1 resolved.2
            { downloads := 1, createdDirs := [workDir], removedDirs := [],
              signerCalls := [] }
        else
          (.error .downloadFailed, s,
           { downloads := 1, createdDirs := [workDir],
             removedDirs := [workDir], signerCalls := [] })
      else (.error .mkdirFailed, s, noResignEffects)
  else
    match findByUUID s req.ipaUUID with
    | none => (.error .invalidUUID, s, noResignEffects)
    | some info =>
      let uuidStr := req.ipaUUID
      let workDir := joinPath outputDir uuidStr
      let sourceIpaPath := joinPath workDir "source.ipa"
      let bundleID :=
        if req.bundleIDParam = "" then info.bundleID else req.bundleIDParam
      let appName :=
        if req.appNameParam = "" then info.appName else req.appNameParam
      resignCommon w s req uuidStr workDir sourceIpaPath bundleID appName
        noResignEffects

/-! Concrete records, worlds and requests used to instantiate the
theorems below on closed inputs. -/

/-- A cached record for origin `http://u/app.ipa`. -/
def recA : IPAInfo :=
  { originalURL := "http://u/app.ipa", uuid := "id-1", bundleID := "com.a",
    appName := "A", uploadedAt := 0 }

/-- A second record with the same origin as `recA` but a different UUID
(such a state arises from the `/resign` fresh-URL path, which stores a
record for its URL without consulting the origin scan). -/
def recB : IPAInfo :=
  { originalURL := "http://u/app.ipa", uuid := "id-2", bundleID := "com.b",
    appName := "B", uploadedAt := 1 }

/-- A record with the same UUID as `recA` but different contents. -/
def recDup : IPAInfo :=
  { originalURL := "http://v/other.ipa", uuid := "id-1", bundleID := "com.dup",
    appName := "Dup", uploadedAt := 7 }

/-- A decoded `Info.plist` with a bundle identifier and an internal name
but no display name. -/
def demoObj : List (String × PlistValue) :=
  [("CFBundleIdentifier", PlistValue.str "com.example.app"),
   ("CFBundleName", PlistValue.str "ExampleApp")]

/-- A world in which every external interaction succeeds. -/
def wDemo : World :=
  { baseURL := "http://localhost:8080", newUUID := "uuid-1", now := 42,
    mkdirOK := true, downloadOK := fun _ => true,
    plistDoc := PlistDoc.parsed demoObj, saveP12OK := true, saveMPOK := true,
    signerExitOK := true, signerOutput := "", outputExists := true,
    plistWriteOK := true }

/-- Like `wDemo` but the HTTP download of the archive fails. -/
def wNoDL : World := { wDemo with downloadOK := fun _ => false }

/-- Like `wDemo` but the downloaded archive's plist fails to parse, and a
different UUID is generated. -/
def wNoPlist : World :=
  { wDemo with plistDoc := PlistDoc.parseFailed, newUUID := "uuid-2" }

/-- A `/resign` request for the already-analyzed `recA` with no
overrides. -/
def reqByUUID : ResignRequest :=
  { ipaUUID := "id-1", ipaURL := "", bundleIDParam := "", appNameParam := "",
    p12Password := "secret", p12Provided := true,
    mobileprovisionProvided := true }

/-- `reqByUUID` with an empty credential password. -/
def reqNoPw : ResignRequest := { reqByUUID with p12Password := "" }

/-- A `/resign` request giving a fresh URL, with no overrides. -/
def reqByURL : ResignRequest :=
  { ipaUUID := "", ipaURL := "http://u/new.ipa", bundleIDParam := "",
    appNameParam := "", p12Password := "secret", p12Provided := true,
    mobileprovisionProvided := true }

/-- The record the `/resign` fresh-URL path stores when extraction fails
and no overrides were supplied (both metadata fields empty). -/
def emptyRec : IPAInfo :=
  { originalURL := "http://u/new.ipa", uuid := "uuid-2", bundleID := "",
    appName := "", uploadedAt := 42 }

/-! Helper lemmas about `find?`, `countP` and the cache operations. -/

/-- In a list whose `countP` is at most one, two members satisfying the
predicate are equal. -/
theorem countP_le_one_eq {α : Type} {p : α → Bool} {l : List α}
    (h : l.countP p ≤ 1) {x y : α} (hx : x ∈ l) (hpx : p x = true)
    (hy : y ∈ l) (hpy : p y = true) : x = y := by
  have hx' : x ∈ l.filter p := List.mem_filter.mpr ⟨hx, hpx⟩
  have hy' : y ∈ l.filter p := List.mem_filter.mpr ⟨hy, hpy⟩
  have hlen : (l.filter p).length ≤ 1 := by
    rw [← List.countP_eq_length_filter]; exact h
  rcases hf : l.filter p with _ | ⟨a, _ | ⟨b, t⟩⟩
  · rw [hf] at hx'; cases hx'
  · rw [hf] at hx' hy'
    simp only [List.mem_singleton] at hx' hy'
    rw [hx', hy']
  · rw [hf] at hlen; simp at hlen

/-- If some member of `l` satisfies `p`, then `find?` succeeds, and its
result satisfies `p` and is a member. -/
theorem find?_hit {α : Type} {p : α → Bool} {l : List α} {x : α}
    (hx : x ∈ l) (hpx : p x = true) :
    ∃ y, l.find? p = some y ∧ p y = true ∧ y ∈ l := by
  cases hf : l.find? p with
  | none => exact absurd hpx (List.find?_eq_none.mp hf x hx)
  | some y => exact ⟨y, rfl, List.find?_some hf, List.mem_of_find?_eq_some hf⟩

/-- When the cache holds at most one record with origin `url` and `x` is
such a record, the scan finds exactly `x` in every iteration order. -/
theorem findByOriginOrd_unique_mem {o s : List IPAInfo} {url : String}
    {x : IPAInfo} (hperm : o.Perm s) (hcount : countOrigin s url ≤ 1)
    (hx : x ∈ s) (hpx : x.originalURL = url) :
    findByOriginOrd o url = some x := by
  have hpb : (x.originalURL == url) = true := by simpa using hpx
  have hxo : x ∈ o := hperm.mem_iff.mpr hx
  obtain ⟨y, hy, hpy, hyo⟩ :=
    @find?_hit IPAInfo (fun i => i.originalURL == url) o x hxo hpb
  have hcount' : s.countP (fun i => i.originalURL == url) ≤ 1 := hcount
  have hyx : y = x :=
    countP_le_one_eq hcount' (hperm.mem_iff.mp hyo) hpy hx hpb
  show o.find? (fun i => i.originalURL == url) = some x
  rw [hy, hyx]

/-- Inserting a record whose UUID is not yet in the cache appends it. -/
theorem insertCache_append {s : CacheState} {r : IPAInfo}
    (h : ∀ i ∈ s, i.uuid ≠ r.uuid) : insertCache s r = s ++ [r] := by
  have hc : ¬(s.any (fun i => i.uuid == r.uuid) = true) := by
    rw [List.any_eq_true]
    rintro ⟨x, hx, hbeq⟩
    exact h x hx (by simpa using hbeq)
  unfold insertCache
  rw [if_neg hc]

/-- After replacing every record keyed `r.uuid` by `r`, looking the key up
finds `r`, provided the key was present. -/
theorem find?_replace_map {s : List IPAInfo} {r : IPAInfo}
    (h : ∃ i ∈ s, i.uuid = r.uuid) :
    (s.map (fun i => if i.uuid == r.uuid then r else i)).find?
      (fun i => i.uuid == r.uuid) = some r := by
  induction s with
  | nil => obtain ⟨i, hi, _⟩ := h; cases hi
  | cons a t ih =>
    by_cases ha : a.uuid = r.uuid
    · have hab : (a.uuid == r.uuid) = true := by simpa using ha
      simp only [List.map_cons, hab, if_true]
      exact List.find?_cons_of_pos _ (by simp)
    · have hab : (a.uuid == r.uuid) = false := by simpa using ha
      simp only [List.map_cons]
      rw [if_neg (by simp [hab])]
      rw [List.find?_cons_of_neg _ (by simp [hab])]
      apply ih
      obtain ⟨i, hi, hiu⟩ := h
      rcases List.mem_cons.mp hi with hi | hi
      · exact absurd (hi ▸ hiu) ha
      · exact ⟨i, hi, hiu⟩

/-! Claim theorems. -/

/-- C2, counterexample: the origin scan does not return the first record
ever stored.  The cache (in insertion order) holds `recA` then `recB`,
both with origin `http://u/app.ipa`; the iteration order `[recB, recA]`
is a permutation of the cache contents (hence a possible Go map iteration
order), yet the scan returns `recB`, not the first-stored `recA`. -/
theorem find_by_origin_not_first_cex :
    ([recB, recA].Perm [recA, recB]) ∧
    firstStored [recA, recB] "http://u/app.ipa" = some recA ∧
    findByOriginOrd [recB, recA] "http://u/app.ipa" = some recB ∧
    recB ≠ recA := by decide

/-- C2, amended: the scan `find_by_origin` ranges over the cache map in
an unspecified order, so when the cache holds at most one record with the
given origin it returns the first (indeed only) record stored for that
origin, in every iteration order; with several records sharing the origin
the result is order-dependent and need not be the first stored. -/
theorem findByOrigin_first_when_unique (s : CacheState) (url : String)
    (o : List IPAInfo) (hperm : o.Perm s)
    (hcount : countOrigin s url ≤ 1) :
    findByOriginOrd o url = firstStored s url := by
  cases hf : firstStored s url with
  | none =>
    have hnone : ∀ i ∈ s, ¬(i.originalURL == url) = true :=
      List.find?_eq_none.mp hf
    show o.find? (fun i => i.originalURL == url) = none
    exact List.find?_eq_none.mpr fun i hi => hnone i (hperm.mem_iff.mp hi)
  | some x =>
    have hf' : s.find? (fun i => i.originalURL == url) = some x := hf
    have hpx := List.find?_some hf'
    have hxs : x ∈ s := List.mem_of_find?_eq_some hf'
    exact findByOriginOrd_unique_mem hperm hcount hxs (by simpa using hpx)

/-- C2, witness for the amended theorem at a concrete input: a singleton
cache scanned in its own order. -/
theorem findByOrigin_first_when_unique_witness :
    findByOriginOrd [recA] "http://u/app.ipa" =
      firstStored [recA] "http://u/app.ipa" :=
  findByOrigin_first_when_unique [recA] "http://u/app.ipa" [recA]
    (List.Perm.refl _) (by decide)

/-- C3, counterexample: storing a record whose UUID is already in the
cache does not fail; the Go map assignment silently replaces the existing
record (`recA`) with the new one (`recDup`). -/
theorem insert_duplicate_cex :
    insertCache [recA] recDup = [recDup] ∧ recDup ≠ recA := by decide

/-- C3, amended: `insert` is the Go map assignment
`ipaCache[uuidStr] = IPAInfo{...}`: it never fails, and when the
identifier is already present it silently replaces the existing record
wholesale (the cache size does not grow and the key now maps to the new
record). -/
theorem insertCache_silently_replaces (s : CacheState) (r : IPAInfo)
    (h : ∃ i ∈ s, i.uuid = r.uuid) :
    findByUUID (insertCache s r) r.uuid = some r ∧
    (insertCache s r).length = s.length := by
  have hany : s.any (fun i => i.uuid == r.uuid) = true := by
    rw [List.any_eq_true]
    obtain ⟨i, hi, hiu⟩ := h
    exact ⟨i, hi, by simpa using hiu⟩
  unfold insertCache
  rw [if_pos hany]
  exact ⟨find?_replace_map h, List.length_map _ _⟩

/-- C3, witness for the amended theorem at a concrete input. -/
theorem insertCache_silently_replaces_witness :
    findByUUID (insertCache [recA] recDup) recDup.uuid = some recDup ∧
    (insertCache [recA] recDup).length = ([recA] : CacheState).length :=
  insertCache_silently_replaces [recA] recDup ⟨recA, by decide, by decide⟩

/-- C4, counterexample: `payload.bin` is outside the artifact allow-list,
yet the handler is not rejected before filesystem access: it stats the
composed path (the access list is nonempty) and serves the file when it
exists. -/
theorem download_no_allowlist_cex :
    ("payload.bin" ∉ specAllowList) ∧
    (downloadHandler (fun _ => true) "some-uuid" "payload.bin").2 =
      ["./output/some-uuid/payload.bin"] ∧
    (downloadHandler (fun _ => true) "some-uuid" "payload.bin").1 =
      DownloadResult.served "./output/some-uuid/payload.bin" none none :=
  ⟨by decide, rfl, rfl⟩

/-- C4, amended: the download handler performs no allow-list validation
at all.  For every filename (allowed or not) it composes
`outputDir/uuid/filename` and accesses the filesystem at exactly that
path, answering 404 exactly when the file is absent and serving it
otherwise; no request is rejected by name. -/
theorem downloadHandler_no_validation (fe : String → Bool)
    (u filename : String) :
    (downloadHandler fe u filename).2 =
      [joinPath (joinPath outputDir u) filename] ∧
    ((downloadHandler fe u filename).1 = DownloadResult.notFound ↔
      fe (joinPath (joinPath outputDir u) filename) = false) := by
  unfold downloadHandler
  cases hfe : fe (joinPath (joinPath outputDir u) filename) with
  | false => simp [hfe]
  | true =>
    by_cases h1 : hasSuffix filename ".ipa" <;>
      by_cases h2 : hasSuffix filename ".plist" <;>
      simp [hfe, h1, h2]

/-- C4, witness for the amended theorem at a concrete input. -/
theorem downloadHandler_no_validation_witness :
    (downloadHandler (fun _ => false) "some-uuid" "secret.txt").2 =
      [joinPath (joinPath outputDir "some-uuid") "secret.txt"] ∧
    ((downloadHandler (fun _ => false) "some-uuid" "secret.txt").1 =
        DownloadResult.notFound ↔
      (fun _ => false : String → Bool)
        (joinPath (joinPath outputDir "some-uuid") "secret.txt") = false) :=
  downloadHandler_no_validation (fun _ => false) "some-uuid" "secret.txt"

/-- C7, counterexample: a plist whose display-name key holds the empty
string.  Extraction succeeds and `app_name` is the empty string, so
`app_name` is not "never empty". -/
theorem app_name_empty_cex :
    extractIPAInfo (PlistDoc.parsed
      [("CFBundleIdentifier", PlistValue.str "com.example.app"),
       ("CFBundleDisplayName", PlistValue.str "")]) =
      Except.ok ("com.example.app", "") := rfl

/-- C7, amended: on a parsed document with a string bundle identifier,
extraction never fails on account of the app name, and `app_name` is the
display-name value if present as a string, else the internal-name value
if present as a string, else the placeholder `"Unknown App"`.  (It is
empty exactly when the plist value selected this way is itself the empty
string; the placeholder branch is never empty.) -/
theorem extract_app_name_resolution (obj : List (String × PlistValue))
    (bid : String)
    (hbid : asString (lookupKey obj "CFBundleIdentifier") = some bid) :
    extractIPAInfo (PlistDoc.parsed obj) =
      Except.ok (bid, resolveAppName obj) ∧
    (∀ n, asString (lookupKey obj "CFBundleDisplayName") = some n →
      resolveAppName obj = n) ∧
    (∀ n, asString (lookupKey obj "CFBundleDisplayName") = none →
      asString (lookupKey obj "CFBundleName") = some n →
      resolveAppName obj = n) ∧
    (asString (lookupKey obj "CFBundleDisplayName") = none →
      asString (lookupKey obj "CFBundleName") = none →
      resolveAppName obj = "Unknown App") := by
  refine ⟨?_, ?_, ?_, ?_⟩
  · show (match asString (lookupKey obj "CFBundleIdentifier") with
      | none => Except.error ExtractError.bundleIDMissing
      | some bundleID => Except.ok (bundleID, resolveAppName obj)) =
        Except.ok (bid, resolveAppName obj)
    rw [hbid]
  · intro n hn
    unfold resolveAppName
    rw [hn]
  · intro n hd hn
    unfold resolveAppName
    rw [hd, hn]
  · intro hd hn
    unfold resolveAppName
    rw [hd, hn]

/-- C1: evaluation of the Analyze flow at the failing input.  The origin
`http://example.com/app.ipa` is not in the (empty) index and the download
fails.  The handler fails with the fetch error and creates no index
entry, as the claim says — but the working directory created for the
fresh identifier is *not* removed (`removedDirs = []`): the download
error return at main.go:236-239 has no `os.RemoveAll(workDir)`, unlike
the extraction error return at main.go:245 and unlike the same failure in
`resignHandler` at main.go:351. -/
theorem analyze_download_failure_leaves_directory :
    analyzeIPAHandler wNoDL [] [] "http://example.com/app.ipa" =
      (Except.error AnalyzeError.downloadFailed, [],
       { downloads := 1, extractions := 0,
         createdDirs := ["./output/uuid-1"], removedDirs := [] }) := rfl

/-- Inversion helper: a cache hit returns the cached record's data with
no effects and no state change (main.go:206-220). -/
theorem analyze_cache_hit (w : World) (o : List IPAInfo) (s : CacheState)
    (url : String) (info : IPAInfo) (hurl : ¬url = "")
    (hfo : findByOriginOrd o url = some info) :
    analyzeIPAHandler w o s url =
      (Except.ok { uuid := info.uuid, bundleID := info.bundleID,
                   appName := info.appName,
                   sourceURL := sourceDownloadURL w.baseURL info.uuid,
                   analyzed := true }, s, noAnalyzeEffects) := by
  simp only [analyzeIPAHandler]
  rw [if_neg hurl, hfo]

/-- C10: every successful Analyze response carries `analyzed = true`,
in the cache-hit branch (main.go:215) and in the fresh-analysis branch
(main.go:267) alike; the flag never distinguishes the two cases. -/
theorem analyze_flag_true (w : World) (o : List IPAInfo) (s : CacheState)
    (url : String) {resp : AnalyzeResponse} {s' : CacheState}
    {e : AnalyzeEffects}
    (h : analyzeIPAHandler w o s url = (Except.ok resp, s', e)) :
    resp.analyzed = true := by
  simp only [analyzeIPAHandler] at h
  split at h
  · simp at h
  · split at h
    · simp only [Prod.mk.injEq, Except.ok.injEq] at h
      rw [← h.1]
    · split at h
      · split at h
        · split at h
          · simp at h
          · simp only [Prod.mk.injEq, Except.ok.injEq] at h
            rw [← h.1]
        · simp at h
      · simp at h

/-- C10, witness: the fresh-analysis branch at a concrete input. -/
theorem analyze_flag_true_witness :
    ({ uuid := "uuid-1", bundleID := "com.example.app",
       appName := "ExampleApp",
       sourceURL := "http://localhost:8080/download/uuid-1/source.ipa",
       analyzed := true } : AnalyzeResponse).analyzed = true :=
  analyze_flag_true wDemo [] [] "http://u/app.ipa" rfl

/-- C6: Analyze is idempotent.  If the cache holds at most one record
with the given origin (the deduplication invariant) and the freshly
generated UUID does not collide with a cached one, then after any
successful Analyze call a second Analyze of the same URL — under any
world and any Go map iteration order — succeeds with the same
identifier, changes nothing, and performs no download and no metadata
extraction. -/
theorem analyze_idempotent (w w' : World) (s : CacheState) (url : String)
    (o1 o2 : List IPAInfo) {r1 : AnalyzeResponse} {s1 : CacheState}
    {e1 : AnalyzeEffects}
    (hcount : countOrigin s url ≤ 1)
    (hfresh : ∀ i ∈ s, i.uuid ≠ w.newUUID)
    (ho1 : o1.Perm s)
    (h1 : analyzeIPAHandler w o1 s url = (Except.ok r1, s1, e1))
    (ho2 : o2.Perm s1) :
    ∃ r2, analyzeIPAHandler w' o2 s1 url =
        (Except.ok r2, s1, noAnalyzeEffects) ∧ r2.uuid = r1.uuid := by
  by_cases hurl : url = ""
  · simp [analyzeIPAHandler, hurl] at h1
  · cases hfo : findByOriginOrd o1 url with
    | some info =>
      rw [analyze_cache_hit w o1 s url info hurl hfo] at h1
      simp only [Prod.mk.injEq, Except.ok.injEq] at h1
      obtain ⟨hr1, hs1, -⟩ := h1
      have hfo' : o1.find? (fun i => i.originalURL == url) = some info := hfo
      have hpi := List.find?_some hfo'
      have his : info ∈ s := ho1.mem_iff.mp (List.mem_of_find?_eq_some hfo')
      have hperm2 : o2.Perm s := hs1 ▸ ho2
      have hfind2 : findByOriginOrd o2 url = some info :=
        findByOriginOrd_unique_mem hperm2 hcount his (by simpa using hpi)
      exact ⟨_, analyze_cache_hit w' o2 s1 url info hurl hfind2,
        by rw [← hr1]⟩
    | none =>
      simp only [analyzeIPAHandler] at h1
      rw [if_neg hurl, hfo] at h1
      cases hmk : w.mkdirOK with
      | false => simp [hmk] at h1
      | true =>
        cases hdl : w.downloadOK url with
        | false => simp [hmk, hdl] at h1
        | true =>
          simp only [hmk, hdl, if_true] at h1
          cases hex : extractIPAInfo w.plistDoc with
          | error e => rw [hex] at h1; simp at h1
          | ok pair =>
            obtain ⟨bid, an⟩ := pair
            rw [hex] at h1
            simp only [Prod.mk.injEq, Except.ok.injEq] at h1
            obtain ⟨hr1, hs1, -⟩ := h1
            have hzero : s.countP (fun i => i.originalURL == url) = 0 := by
              rw [List.countP_eq_zero]
              intro i hi
              exact List.find?_eq_none.mp hfo i (ho1.mem_iff.mpr hi)
            have hins : insertCache s
                { originalURL := url, uuid := w.newUUID, bundleID := bid,
                  appName := an, uploadedAt := w.now } =
                s ++ [{ originalURL := url, uuid := w.newUUID,
                        bundleID := bid, appName := an,
                        uploadedAt := w.now }] :=
              insertCache_append (fun i hi => hfresh i hi)
            rw [hins] at hs1
            have hcount1 : countOrigin s1 url ≤ 1 := by
              rw [← hs1]
              unfold countOrigin
              rw [List.countP_append, hzero]
              simp
            have hmem : ({ originalURL := url, uuid := w.newUUID,
                           bundleID := bid, appName := an,
                           uploadedAt := w.now } : IPAInfo) ∈ s1 := by
              rw [← hs1]
              simp
            have hfind2 : findByOriginOrd o2 url =
                some { originalURL := url, uuid := w.newUUID, bundleID := bid,
                       appName := an, uploadedAt := w.now } :=
              findByOriginOrd_unique_mem ho2 hcount1 hmem rfl
            refine ⟨_, analyze_cache_hit w' o2 s1 url _ hurl hfind2, ?_⟩
            rw [← hr1]

/-- C6, witness: a fresh analysis of `http://u/app.ipa` from the empty
cache, followed by a second call under a different world. -/
theorem analyze_idempotent_witness :
    ∃ r2, analyzeIPAHandler wNoDL
        [{ originalURL := "http://u/app.ipa", uuid := "uuid-1",
           bundleID := "com.example.app", appName := "ExampleApp",
           uploadedAt := 42 }]
        [{ originalURL := "http://u/app.ipa", uuid := "uuid-1",
           bundleID := "com.example.app", appName := "ExampleApp",
           uploadedAt := 42 }] "http://u/app.ipa" =
        (Except.ok r2,
         [{ originalURL := "http://u/app.ipa", uuid := "uuid-1",
            bundleID := "com.example.app", appName := "ExampleApp",
            uploadedAt := 42 }], noAnalyzeEffects) ∧
      r2.uuid = "uuid-1" :=
  analyze_idempotent wDemo wNoDL [] "http://u/app.ipa" [] _
    (by decide) (by decide) (List.Perm.refl _) rfl (List.Perm.refl _)

/-- Inversion helper: with an existing identifier, `resignHandler`
resolves metadata from the overrides (falling back to the cached record)
and proceeds to `resignCommon` with no prior effects
(main.go:305-334). -/
theorem resign_by_uuid (w : World) (s : CacheState) (req : ResignRequest)
    (info : IPAInfo) (huuid : ¬req.ipaUUID = "")
    (hfind : findByUUID s req.ipaUUID = some info) :
    resignHandler w s req =
      resignCommon w s req req.ipaUUID (joinPath outputDir req.ipaUUID)
        (joinPath (joinPath outputDir req.ipaUUID) "source.ipa")
        (if req.bundleIDParam = "" then info.bundleID else req.bundleIDParam)
        (if req.appNameParam = "" then info.appName else req.appNameParam)
        noResignEffects := by
  simp only [resignHandler]
  rw [if_neg huuid, hfind]

/-- Helper: once the upload, password and metadata checks pass,
`resignCommon` appends exactly one signer invocation with the fixed
argument vector of main.go:428-438, and returns a success response only
when the signer exits zero and the output file exists. -/
theorem resignCommon_reaches_signer (w : World) (s : CacheState)
    (req : ResignRequest) (u wd sp b a : String) (eff : ResignEffects)
    (hp12 : req.p12Provided = true) (hsp : w.saveP12OK = true)
    (hmp : req.mobileprovisionProvided = true) (hsm : w.saveMPOK = true)
    (hpw : ¬req.p12Password = "") (hb : ¬b = "") (ha : ¬a = "") :
    ((resignCommon w s req u wd sp b a eff).2.2.signerCalls =
      eff.signerCalls ++
        [{ tool := "zsign",
           args := ["-k", joinPath wd "cert.p12",
                    "-m", joinPath wd "profile.mobileprovision",
                    "-p", req.p12Password, "-b", b, "-n", a,
                    "-o", joinPath wd "resigned.ipa", "-z", "9", sp] }]) ∧
    (∀ ok : ResignOk,
      (resignCommon w s req u wd sp b a eff).1 = Except.ok ok →
      w.signerExitOK = true ∧ w.outputExists = true) := by
  simp only [resignCommon]
  rw [if_pos hp12, if_pos hsp, if_pos hmp, if_pos hsm, if_neg hpw,
    if_neg (not_or.mpr ⟨hb, ha⟩)]
  constructor
  · cases hse : w.signerExitOK <;> cases hoe : w.outputExists <;>
      cases hpl : w.plistWriteOK <;> simp [hse, hoe, hpl]
  · intro ok hok
    cases hse : w.signerExitOK <;> cases hoe : w.outputExists <;>
      cases hpl : w.plistWriteOK <;> simp [hse, hoe, hpl] at hok ⊢

/-- C5: with a valid existing identifier, valid uploads, a non-empty
password, and non-empty resolved bundle id and app name, the external
signer is invoked exactly once with the fixed ordered argument vector —
credential path, profile path, password, bundle id, app name, output
path, compression level 9, source path — and a success response is
returned only if the signer exited zero and the output file exists. -/
theorem resign_signer_contract (w : World) (s : CacheState)
    (req : ResignRequest) (info : IPAInfo)
    (huuid : ¬req.ipaUUID = "")
    (hfind : findByUUID s req.ipaUUID = some info)
    (hp12 : req.p12Provided = true) (hsp : w.saveP12OK = true)
    (hmp : req.mobileprovisionProvided = true) (hsm : w.saveMPOK = true)
    (hpw : ¬req.p12Password = "")
    (hb : ¬(if req.bundleIDParam = "" then info.bundleID
            else req.bundleIDParam) = "")
    (ha : ¬(if req.appNameParam = "" then info.appName
            else req.appNameParam) = "") :
    ((resignHandler w s req).2.2.signerCalls =
      [{ tool := "zsign",
         args := ["-k", joinPath (joinPath outputDir req.ipaUUID) "cert.p12",
                  "-m", joinPath (joinPath outputDir req.ipaUUID)
                    "profile.mobileprovision",
                  "-p", req.p12Password,
                  "-b", (if req.bundleIDParam = "" then info.bundleID
                         else req.bundleIDParam),
                  "-n", (if req.appNameParam = "" then info.appName
                         else req.appNameParam),
                  "-o", joinPath (joinPath outputDir req.ipaUUID)
                    "resigned.ipa",
                  "-z", "9",
                  joinPath (joinPath outputDir req.ipaUUID) "source.ipa"] }]) ∧
    (∀ ok : ResignOk, (resignHandler w s req).1 = Except.ok ok →
      w.signerExitOK = true ∧ w.outputExists = true) := by
  rw [resign_by_uuid w s req info huuid hfind]
  have h := resignCommon_reaches_signer w s req req.ipaUUID
    (joinPath outputDir req.ipaUUID)
    (joinPath (joinPath outputDir req.ipaUUID) "source.ipa")
    (if req.bundleIDParam = "" then info.bundleID else req.bundleIDParam)
    (if req.appNameParam = "" then info.appName else req.appNameParam)
    noResignEffects hp12 hsp hmp hsm hpw hb ha
  simpa [noResignEffects] using h

/-- C5, witness: resigning the analyzed `recA` in `wDemo` with request
`reqByUUID` (no overrides, password `secret`). -/
theorem resign_signer_contract_witness :
    ((resignHandler wDemo [recA] reqByUUID).2.2.signerCalls =
      [{ tool := "zsign",
         args := ["-k", "./output/id-1/cert.p12",
                  "-m", "./output/id-1/profile.mobileprovision",
                  "-p", "secret", "-b", "com.a", "-n", "A",
                  "-o", "./output/id-1/resigned.ipa", "-z", "9",
                  "./output/id-1/source.ipa"] }]) ∧
    (∀ ok : ResignOk, (resignHandler wDemo [recA] reqByUUID).1 =
        Except.ok ok →
      wDemo.signerExitOK = true ∧ wDemo.outputExists = true) :=
  resign_signer_contract wDemo [recA] reqByUUID recA (by decide) rfl rfl rfl
    rfl rfl (by decide) (by decide) (by decide)

/-- Helper: with an empty password, `resignCommon` never reaches the
signer invocation and leaves the effects unchanged. -/
theorem resignCommon_empty_pw (w : World) (s : CacheState)
    (req : ResignRequest) (u wd sp b a : String) (eff : ResignEffects)
    (hpw : req.p12Password = "") :
    (resignCommon w s req u wd sp b a eff).2.2 = eff := by
  simp only [resignCommon]
  cases h1 : req.p12Provided <;> cases h2 : w.saveP12OK <;>
    cases h3 : req.mobileprovisionProvided <;> cases h4 : w.saveMPOK <;>
    simp [h1, h2, h3, h4, hpw]

/-- Helper: when the upload steps pass and the password is empty,
`resignCommon` fails with the missing-password error. -/
theorem resignCommon_empty_pw_result (w : World) (s : CacheState)
    (req : ResignRequest) (u wd sp b a : String) (eff : ResignEffects)
    (hp12 : req.p12Provided = true) (hsp : w.saveP12OK = true)
    (hmp : req.mobileprovisionProvided = true) (hsm : w.saveMPOK = true)
    (hpw : req.p12Password = "") :
    (resignCommon w s req u wd sp b a eff).1 =
      Except.error ResignError.missingPassword := by
  simp only [resignCommon]
  rw [if_pos hp12, if_pos hsp, if_pos hmp, if_pos hsm, if_pos hpw]

/-- C8: a Resign request with an empty credential password never launches
the signer subprocess (in any request/world whatsoever), and — when the
request otherwise passes identity resolution and both uploads — it fails
with the missing-password error (main.go:412-416, before the
`exec.Command` at main.go:428). -/
theorem resign_missing_password (w : World) (s : CacheState)
    (req : ResignRequest) (hpw : req.p12Password = "") :
    (resignHandler w s req).2.2.signerCalls = [] ∧
    (∀ info : IPAInfo, ¬req.ipaUUID = "" →
      findByUUID s req.ipaUUID = some info →
      req.p12Provided = true → w.saveP12OK = true →
      req.mobileprovisionProvided = true → w.saveMPOK = true →
      (resignHandler w s req).1 =
        Except.error ResignError.missingPassword) := by
  constructor
  · simp only [resignHandler]
    split
    · split
      · rfl
      · split
        · split
          · rw [resignCommon_empty_pw w _ req _ _ _ _ _ _ hpw]
          · rfl
        · rfl
    · split
      · rfl
      · rw [resignCommon_empty_pw w _ req _ _ _ _ _ _ hpw]
        rfl
  · intro info huuid hfind hp12 hsp hmp hsm
    rw [resign_by_uuid w s req info huuid hfind]
    exact resignCommon_empty_pw_result w s req _ _ _ _ _ noResignEffects
      hp12 hsp hmp hsm hpw

/-- C8, witness: `reqNoPw` (empty password) against the cache holding
`recA`, in `wDemo`. -/
theorem resign_missing_password_witness :
    (resignHandler wDemo [recA] reqNoPw).2.2.signerCalls = [] ∧
    (∀ info : IPAInfo, ¬reqNoPw.ipaUUID = "" →
      findByUUID [recA] reqNoPw.ipaUUID = some info →
      reqNoPw.p12Provided = true → wDemo.saveP12OK = true →
      reqNoPw.mobileprovisionProvided = true → wDemo.saveMPOK = true →
      (resignHandler wDemo [recA] reqNoPw).1 =
        Except.error ResignError.missingPassword) :=
  resign_missing_password wDemo [recA] reqNoPw rfl

/-- Inversion helper: the fresh-URL path of `resignHandler` with a
successful download, failed extraction and no overrides stores a record
with empty metadata fields in the cache and continues with empty
`bundleID`/`appName` (main.go:336-381). -/
theorem resign_by_url_extract_fail (w : World) (s : CacheState)
    (req : ResignRequest) (e : ExtractError)
    (huuid : req.ipaUUID = "") (hurl : ¬req.ipaURL = "")
    (hmk : w.mkdirOK = true) (hdl : w.downloadOK req.ipaURL = true)
    (hext : extractIPAInfo w.plistDoc = Except.error e)
    (hbp : req.bundleIDParam = "") (hap : req.appNameParam = "") :
    resignHandler w s req =
      resignCommon w
        (insertCache s { originalURL := req.ipaURL, uuid := w.newUUID,
                         bundleID := "", appName := "",
                         uploadedAt := w.now })
        req w.newUUID (joinPath outputDir w.newUUID)
        (joinPath (joinPath outputDir w.newUUID) "source.ipa") "" ""
        { downloads := 1, createdDirs := [joinPath outputDir w.newUUID],
          removedDirs := [], signerCalls := [] } := by
  simp only [resignHandler]
  rw [if_pos huuid, if_neg hurl, if_pos hmk, if_pos hdl, hbp, hap,
    if_pos (Or.inl rfl), hext]

/-- Helper: when the upload and password checks pass but `bundleID` is
empty, `resignCommon` fails with the missing-metadata error — with the
cache state it was handed left in place. -/
theorem resignCommon_missing_metadata (w : World) (s : CacheState)
    (req : ResignRequest) (u wd sp : String) (eff : ResignEffects)
    (hp12 : req.p12Provided = true) (hsp : w.saveP12OK = true)
    (hmp : req.mobileprovisionProvided = true) (hsm : w.saveMPOK = true)
    (hpw : ¬req.p12Password = "") :
    resignCommon w s req u wd sp "" "" eff =
      (Except.error ResignError.missingMetadata, s, eff) := by
  simp only [resignCommon]
  rw [if_pos hp12, if_pos hsp, if_pos hmp, if_pos hsm, if_neg hpw,
    if_pos (Or.inl trivial)]

/-- C9: in the fresh-URL Resign path, after a successful download with
failed extraction and no overrides, the request fails at the
required-fields check — but the index record with empty `bundle_id` and
`app_name` was already inserted and is returned by a later
`find_by_origin` lookup for that URL (in any iteration order, given the
origin and the fresh UUID were not already present). -/
theorem resign_stores_empty_metadata (w : World) (s : CacheState)
    (req : ResignRequest) (o : List IPAInfo) (e : ExtractError)
    (huuid : req.ipaUUID = "") (hurl : ¬req.ipaURL = "")
    (hmk : w.mkdirOK = true) (hdl : w.downloadOK req.ipaURL = true)
    (hext : extractIPAInfo w.plistDoc = Except.error e)
    (hbp : req.bundleIDParam = "") (hap : req.appNameParam = "")
    (hp12 : req.p12Provided = true) (hsp : w.saveP12OK = true)
    (hmp : req.mobileprovisionProvided = true) (hsm : w.saveMPOK = true)
    (hpw : ¬req.p12Password = "")
    (hnone : ∀ i ∈ s, i.originalURL ≠ req.ipaURL)
    (hfresh : ∀ i ∈ s, i.uuid ≠ w.newUUID)
    (ho : o.Perm ((resignHandler w s req).2.1)) :
    (resignHandler w s req).1 = Except.error ResignError.missingMetadata ∧
    findByOriginOrd o req.ipaURL =
      some { originalURL := req.ipaURL, uuid := w.newUUID, bundleID := "",
             appName := "", uploadedAt := w.now } := by
  have hres := resign_by_url_extract_fail w s req e huuid hurl hmk hdl hext
    hbp hap
  have hcommon := resignCommon_missing_metadata w
    (insertCache s { originalURL := req.ipaURL, uuid := w.newUUID,
                     bundleID := "", appName := "", uploadedAt := w.now })
    req w.newUUID (joinPath outputDir w.newUUID)
    (joinPath (joinPath outputDir w.newUUID) "source.ipa")
    { downloads := 1, createdDirs := [joinPath outputDir w.newUUID],
      removedDirs := [], signerCalls := [] }
    hp12 hsp hmp hsm hpw
  have hins : insertCache s
      { originalURL := req.ipaURL, uuid := w.newUUID, bundleID := "",
        appName := "", uploadedAt := w.now } =
      s ++ [{ originalURL := req.ipaURL, uuid := w.newUUID, bundleID := "",
              appName := "", uploadedAt := w.now }] :=
    insertCache_append (fun i hi => hfresh i hi)
  have hstate : (resignHandler w s req).2.1 =
      s ++ [{ originalURL := req.ipaURL, uuid := w.newUUID, bundleID := "",
              appName := "", uploadedAt := w.now }] := by
    rw [hres, hcommon, ← hins]
  constructor
  · rw [hres, hcommon]
  · have hzero : s.countP (fun i => i.originalURL == req.ipaURL) = 0 := by
      rw [List.countP_eq_zero]
      intro i hi
      simpa using hnone i hi
    have hcount1 : countOrigin
        (s ++ [{ originalURL := req.ipaURL, uuid := w.newUUID,
                 bundleID := "", appName := "",
                 uploadedAt := w.now }]) req.ipaURL ≤ 1 := by
      unfold countOrigin
      rw [List.countP_append, hzero]
      simp [List.countP_cons]
    have hmem : ({ originalURL := req.ipaURL, uuid := w.newUUID,
                   bundleID := "", appName := "",
                   uploadedAt := w.now } : IPAInfo) ∈
        s ++ [{ originalURL := req.ipaURL, uuid := w.newUUID,
                bundleID := "", appName := "", uploadedAt := w.now }] := by
      simp
    exact findByOriginOrd_unique_mem (hstate ▸ ho) hcount1 hmem rfl

/-- C9, witness: `reqByURL` in `wNoPlist` (download succeeds, plist fails
to parse) from the empty cache; the later lookup scans `[emptyRec]`. -/
theorem resign_stores_empty_metadata_witness :
    (resignHandler wNoPlist [] reqByURL).1 =
      Except.error ResignError.missingMetadata ∧
    findByOriginOrd [emptyRec] "http://u/new.ipa" =
      some { originalURL := "http://u/new.ipa", uuid := "uuid-2",
             bundleID := "", appName := "", uploadedAt := 42 } :=
  resign_stores_empty_metadata wNoPlist [] reqByURL [emptyRec]
    ExtractError.parseFailed rfl (by decide) rfl rfl rfl rfl rfl rfl rfl rfl
    rfl (by decide) (by simp) (by simp) (by decide)

/-- C7, witness for the amended theorem at a concrete input (`demoObj`:
no display name, internal name `ExampleApp`). -/
theorem extract_app_name_resolution_witness :
    extractIPAInfo (PlistDoc.parsed demoObj) =
      Except.ok ("com.example.app", resolveAppName demoObj) ∧
    (∀ n, asString (lookupKey demoObj "CFBundleDisplayName") = some n →
      resolveAppName demoObj = n) ∧
    (∀ n, asString (lookupKey demoObj "CFBundleDisplayName") = none →
      asString (lookupKey demoObj "CFBundleName") = some n →
      resolveAppName demoObj = n) ∧
    (asString (lookupKey demoObj "CFBundleDisplayName") = none →
      asString (lookupKey demoObj "CFBundleName") = none →
      resolveAppName demoObj = "Unknown App") :=
  extract_app_name_resolution demoObj "com.example.app" (by decide)
